import Mathlib

/-!
Shallow embedding of the PC Heartbeat Monitoring System's state-derivation
core (status evaluation, windowed uptime, retry backoff, sender state
machine, retention sweep) together with the launcher and build scripts
that ship in the repository, and proofs of the specified properties.

The heartbeat client/server implementation itself (client_tray.py and the
server-side derivation code) is not shipped in the repository snapshot:
only its documentation, the launcher and the build scripts are present.
Definitions for those components are therefore modelled directly from the
specification text, as indicated in their doc comments.
-/

namespace Heartbeat

/-- The two-state classification the Status Evaluator produces. -/
inductive Status where
  | ONLINE
  | OFFLINE
deriving DecidableEq

/-- Modelled from the spec: the server-side Status Evaluator
(client_tray.py / server derivation code is missing from the repository
snapshot).  Pure function `status(last_seen, now, offline_threshold)`:
`ONLINE` iff `now - last_seen <= offline_threshold`, else `OFFLINE`. -/
def status (last_seen now offline_threshold : ℚ) : Status :=
  if now - last_seen ≤ offline_threshold then Status.ONLINE else Status.OFFLINE

/-- Modelled from the spec: the portion of an inferred online sub-span
`[a, b]` that falls inside the reporting window `[ws, we]` (empty
intersections contribute zero). -/
def overlap (a b ws we : ℚ) : ℚ := max 0 (min b we - max a ws)

/-- Modelled from the spec: total online coverage of the window by the
interval-coverage model of the Uptime Aggregator (implementation missing
from the repository snapshot).  For each consecutive pair of events
`(t, tnext)` the device is online for `min (tnext - t) T` starting at `t`;
the final event's span extends `min (we - t) T`; spans are clipped to the
window, which is how events before `window_start` still contribute when
their span crosses into the window. -/
def covered (T ws we : ℚ) : List ℚ → ℚ
  | [] => 0
  | [t] => overlap t (t + min (we - t) T) ws we
  | t :: tnext :: rest =>
      overlap t (t + min (tnext - t) T) ws we + covered T ws we (tnext :: rest)

/-- Modelled from the spec: `uptime_pct(events, window_start, window_end)`
of the Uptime Aggregator (implementation missing from the repository
snapshot): summed online sub-spans divided by window length, times 100,
clamped to `[0, 100]`; degenerate windows yield 0. -/
def uptime_pct (events : List ℚ) (ws we T : ℚ) : ℚ :=
  if we - ws ≤ 0 then 0
  else min 100 (max 0 (covered T ws we events / (we - ws) * 100))

/-- Direct transcription of the spec's sentence describing the coverage
sum: the sum over consecutive pairs of events of the clipped span
`min (tnext - t) T` starting at `t`, plus the final event's clipped span
`min (we - t) T`.  Stated with an explicit zip over adjacent pairs so it
can be compared with the recursive `covered`. -/
def pairSpanSum (events : List ℚ) (ws we T : ℚ) : ℚ :=
  ((events.zip events.tail).map
      (fun p => overlap p.1 (p.1 + min (p.2 - p.1) T) ws we)).sum +
    (match events.getLast? with
      | none => 0
      | some t => overlap t (t + min (we - t) T) ws we)

/-- Last element of an event list (0 when empty); used to state the
dense-coverage hypothesis without an option type. -/
def lastEv : List ℚ → ℚ
  | [] => 0
  | [t] => t
  | _ :: rest => lastEv rest

/-- Modelled from the spec: the Backoff Controller's fixed upper bound on
the retry delay, a design choice of 10 times the base heartbeat
interval (the client implementation is missing from the repository
snapshot). -/
def cap (base_interval : ℚ) : ℚ := 10 * base_interval

/-- Modelled from the spec: the Backoff Controller's failure-branch delay
after `n` consecutive failures with base interval `I`:
`min (I * 2 ^ n) (cap I)`. -/
def next_delay_failure (I : ℚ) (n : ℕ) : ℚ := min (I * 2 ^ n) (cap I)

/-- Modelled from the spec: the Backoff Controller's success-branch delay,
the steady-state interval itself. -/
def next_delay_success (I : ℚ) : ℚ := I

/-- Modelled from the spec: the evolution of the consecutive-failure
counter — reset to 0 on a successful send, incremented by 1 on a
failure. -/
def backoffAfter (success : Bool) (n : ℕ) : ℕ :=
  if success then 0 else n + 1

/-- Modelled from the spec: the exhausted signal — raised once a positive
`max_retries` has been reached by the consecutive-failure counter;
non-positive `max_retries` is treated as never exhausted. -/
def exhausted (max_retries : ℤ) (n : ℕ) : Bool :=
  decide (0 < max_retries) && decide (max_retries ≤ (n : ℤ))

/-- The Heartbeat Sender's control states. -/
inductive SenderState where
  | STARTING
  | SENDING
  | WAITING
  | STOPPED
deriving DecidableEq

/-- External stimuli driving the Sender loop. -/
inductive SenderEvent where
  | configLoaded
  | sendSuccess
  | sendFailure
  | delayElapsed
  | operatorStop
deriving DecidableEq

/-- Modelled from the spec: the Heartbeat Sender state machine
(client_tray.py is missing from the repository snapshot), carrying the
consecutive-failure counter.  `STOPPED` is terminal and is entered only on
the operator stop stimulus; send outcomes lead to `WAITING`, updating the
counter; elapsing of the computed delay returns to `SENDING`.  Stimuli that
do not apply in a state leave it unchanged. -/
def senderStep (s : SenderState × ℕ) (ev : SenderEvent) : SenderState × ℕ :=
  match s.1, ev with
  | SenderState.STOPPED, _ => (SenderState.STOPPED, s.2)
  | _, SenderEvent.operatorStop => (SenderState.STOPPED, s.2)
  | SenderState.STARTING, SenderEvent.configLoaded => (SenderState.SENDING, s.2)
  | SenderState.SENDING, SenderEvent.sendSuccess => (SenderState.WAITING, 0)
  | SenderState.SENDING, SenderEvent.sendFailure => (SenderState.WAITING, s.2 + 1)
  | SenderState.WAITING, SenderEvent.delayElapsed => (SenderState.SENDING, s.2)
  | _, _ => s

/-- A run of the Sender loop over a list of stimuli. -/
def senderRun (s : SenderState × ℕ) (evs : List SenderEvent) : SenderState × ℕ :=
  List.foldl senderStep s evs

/-- A heartbeat attempt is resolved exactly when the machine is in
`SENDING` and a send outcome arrives. -/
def attemptOccurs (s : SenderState) (ev : SenderEvent) : Bool :=
  decide (s = SenderState.SENDING) &&
    (decide (ev = SenderEvent.sendSuccess) || decide (ev = SenderEvent.sendFailure))

/-- Modelled from the spec: the Retention Sweeper (server implementation
missing from the repository snapshot) under the spec's acceptable policy —
delete exactly the events strictly older than
`max retention_horizon window_len`, i.e. keep an event at time `t` unless
`t < now - max retention_horizon window_len`. -/
def sweep (now retention_horizon window_len : ℚ) (events : List ℚ) : List ℚ :=
  events.filter (fun t => decide (now - max retention_horizon window_len ≤ t))

/-- The observable shape of a `subprocess.Popen` call made by the
launcher. -/
structure Popen where
  args : List String
  creationflags : ℕ
  close_fds : Bool
  waits_for_exit : Bool
deriving DecidableEq

/-- Embedding of launcher.pyw: the `DETACHED_PROCESS` creation flag
constant, `0x00000008`. -/
def DETACHED_PROCESS : ℕ := 8

/-- Embedding of launcher.pyw: the `CREATE_NO_WINDOW` creation flag
constant, `0x08000000`. -/
def CREATE_NO_WINDOW : ℕ := 134217728

/-- The file name of the main script launched by launcher.pyw. -/
def clientTrayScript : String := "client_tray.py"

/-- The value `sys.platform` takes on Windows. -/
def win32Platform : String := "win32"

/-- Abstraction of `os.path.join` on the launcher's two components. -/
def joinPath (dir file : String) : String := dir ++ "/" ++ file

/-- Embedding of the module body of src/launcher.pyw: it resolves
`client_tray.py` against the directory containing the launcher itself
(`os.path.dirname(os.path.abspath(__file__))`), independent of the
caller's working directory, and issues exactly one `subprocess.Popen` —
with creation flags `DETACHED_PROCESS | CREATE_NO_WINDOW` and
`close_fds=True` on `win32`, and with no creation flags elsewhere — and
never waits on the child. -/
def launcher_spawns (platform pythonExe script_dir _caller_cwd : String) : List Popen :=
  if platform = win32Platform then
    [{ args := [pythonExe, joinPath script_dir clientTrayScript],
       creationflags := DETACHED_PROCESS ||| CREATE_NO_WINDOW,
       close_fds := true, waits_for_exit := false }]
  else
    [{ args := [pythonExe, joinPath script_dir clientTrayScript],
       creationflags := 0, close_fds := true, waits_for_exit := false }]

/-- The environment conditions src/build.ps1 branches on. -/
structure BuildEnv where
  client_tray_exists : Bool
  pip_install_succeeds : Bool
deriving DecidableEq

/-- The externally observable effects of one run of src/build.ps1. -/
structure BuildTrace where
  processes_killed : Bool
  artifacts_cleaned : Bool
  install_attempted : Bool
  build_attempted : Bool
  exit_code : Option ℤ
deriving DecidableEq

/-- Embedding of src/build.ps1: step 1 always kills running agent
processes; step 2 aborts with exit code 1 when client_tray.py is absent,
before the step-3 cleanup of old build artifacts; step 4 runs the pip
install and aborts with exit code 1 when it reports a non-zero exit code,
before the step-5 PyInstaller invocation; otherwise step 5 runs the build
and the script ends without an explicit exit. -/
def build_ps1 (env : BuildEnv) : BuildTrace :=
  if !env.client_tray_exists then
    { processes_killed := true, artifacts_cleaned := false,
      install_attempted := false, build_attempted := false,
      exit_code := some 1 }
  else if !env.pip_install_succeeds then
    { processes_killed := true, artifacts_cleaned := true,
      install_attempted := true, build_attempted := false,
      exit_code := some 1 }
  else
    { processes_killed := true, artifacts_cleaned := true,
      install_attempted := true, build_attempted := true,
      exit_code := none }

end Heartbeat

namespace Heartbeat

theorem overlap_nonneg (a b ws we : ℚ) : 0 ≤ overlap a b ws we :=
  le_max_left 0 _

theorem overlap_eq_zero_left (a b ws we : ℚ) (h : b ≤ ws) : overlap a b ws we = 0 := by
  unfold overlap
  apply max_eq_left
  have h1 : min b we ≤ b := min_le_left _ _
  have h2 : ws ≤ max a ws := le_max_right _ _
  linarith

theorem overlap_eq_zero_right (a b ws we : ℚ) (h : we ≤ a) : overlap a b ws we = 0 := by
  unfold overlap
  apply max_eq_left
  have h1 : min b we ≤ we := min_le_right _ _
  have h2 : a ≤ max a ws := le_max_left _ _
  linarith

theorem covered_nonneg (T ws we : ℚ) :
    ∀ events : List ℚ, 0 ≤ covered T ws we events := by
  intro events
  induction events with
  | nil => simp [covered]
  | cons t rest ih =>
      cases rest with
      | nil => exact overlap_nonneg _ _ _ _
      | cons t2 rest2 => exact add_nonneg (overlap_nonneg _ _ _ _) ih

theorem coverKey (t t2 ws we : ℚ) (h : t ≤ t2) :
    max 0 (min t2 we - max t ws) + max 0 (we - max t2 ws) ≤ max 0 (we - max t ws) := by
  simp only [max_def, min_def]
  split_ifs <;> linarith

theorem covered_le_of_sorted (T ws we : ℚ) :
    ∀ (t : ℚ) (rest : List ℚ), List.Chain' (fun a b => a ≤ b) (t :: rest) →
      covered T ws we (t :: rest) ≤ max 0 (we - max t ws) := by
  intro t rest
  induction rest generalizing t with
  | nil =>
      intro _
      have h1 : covered T ws we [t] = overlap t (t + min (we - t) T) ws we := rfl
      rw [h1]
      unfold overlap
      apply max_le_max le_rfl
      apply sub_le_sub_right
      exact min_le_right _ _
  | cons t2 rest2 ih =>
      intro hch
      have hp := List.chain'_cons.mp hch
      have ht : t ≤ t2 := hp.1
      have h1 : covered T ws we (t :: t2 :: rest2)
          = overlap t (t + min (t2 - t) T) ws we + covered T ws we (t2 :: rest2) := rfl
      have h2 : overlap t (t + min (t2 - t) T) ws we ≤ max 0 (min t2 we - max t ws) := by
        unfold overlap
        apply max_le_max le_rfl
        apply sub_le_sub_right
        apply min_le_min _ le_rfl
        have hm : min (t2 - t) T ≤ t2 - t := min_le_left _ _
        linarith
      have h3 := ih t2 hp.2
      have h4 := coverKey t t2 ws we ht
      linarith

theorem lastEv_cons_cons (t t2 : ℚ) (rest : List ℚ) :
    lastEv (t :: t2 :: rest) = lastEv (t2 :: rest) := rfl

theorem chain_head_le_lastEv (T : ℚ) :
    ∀ (t : ℚ) (rest : List ℚ),
      List.Chain' (fun a b => a ≤ b ∧ b - a ≤ T) (t :: rest) →
      t ≤ lastEv (t :: rest) := by
  intro t rest
  induction rest generalizing t with
  | nil => intro _; exact le_refl t
  | cons t2 rest2 ih =>
      intro hch
      have hp := List.chain'_cons.mp hch
      have h2 := ih t2 hp.2
      rw [lastEv_cons_cons]
      exact le_trans hp.1.1 h2

theorem covered_ge_of_dense (T ws we : ℚ) :
    ∀ (t : ℚ) (rest : List ℚ),
      List.Chain' (fun a b => a ≤ b ∧ b - a ≤ T) (t :: rest) →
      lastEv (t :: rest) ≤ we → we - lastEv (t :: rest) ≤ T →
      we - max t ws ≤ covered T ws we (t :: rest) := by
  intro t rest
  induction rest generalizing t with
  | nil =>
      intro _ hle hT
      have hlast : lastEv [t] = t := rfl
      rw [hlast] at hle hT
      have hmin : min (we - t) T = we - t := min_eq_left hT
      have h1 : covered T ws we [t] = overlap t (t + min (we - t) T) ws we := rfl
      rw [h1, hmin]
      unfold overlap
      have h2 : t + (we - t) = we := by ring
      rw [h2, min_self]
      exact le_max_right _ _
  | cons t2 rest2 ih =>
      intro hch hle hT
      have hp := List.chain'_cons.mp hch
      have ht12 : t ≤ t2 := hp.1.1
      have hgap : t2 - t ≤ T := hp.1.2
      rw [lastEv_cons_cons] at hle hT
      have ht2we : t2 ≤ we := le_trans (chain_head_le_lastEv T t2 rest2 hp.2) hle
      have ihh := ih t2 hp.2 hle hT
      have h1 : covered T ws we (t :: t2 :: rest2)
          = overlap t (t + min (t2 - t) T) ws we + covered T ws we (t2 :: rest2) := rfl
      have hmin : min (t2 - t) T = t2 - t := min_eq_left hgap
      have h2 : overlap t (t + min (t2 - t) T) ws we = max 0 (t2 - max t ws) := by
        rw [hmin]
        unfold overlap
        have h3 : t + (t2 - t) = t2 := by ring
        rw [h3, min_eq_left ht2we]
      have h4 : max t2 ws - max t ws ≤ max 0 (t2 - max t ws) := by
        simp only [max_def]
        split_ifs <;> linarith
      linarith

theorem covered_eq_zero_of_disjoint (T ws we : ℚ) :
    ∀ events : List ℚ, (∀ t ∈ events, t + T ≤ ws ∨ we ≤ t) →
      covered T ws we events = 0 := by
  intro events
  induction events with
  | nil => intro _; rfl
  | cons t rest ih =>
      intro h
      have ht := h t (by simp)
      cases rest with
      | nil =>
          have h1 : covered T ws we [t] = overlap t (t + min (we - t) T) ws we := rfl
          rw [h1]
          rcases ht with h2 | h2
          · apply overlap_eq_zero_left
            have hm : min (we - t) T ≤ T := min_le_right _ _
            linarith
          · exact overlap_eq_zero_right _ _ _ _ h2
      | cons t2 rest2 =>
          have h1 : covered T ws we (t :: t2 :: rest2)
              = overlap t (t + min (t2 - t) T) ws we + covered T ws we (t2 :: rest2) := rfl
          rw [h1, ih (fun x hx => h x (by simp [hx]))]
          rcases ht with h2 | h2
          · rw [overlap_eq_zero_left]
            · ring
            · have hm : min (t2 - t) T ≤ T := min_le_right _ _
              linarith
          · rw [overlap_eq_zero_right _ _ _ _ h2]
            ring

theorem covered_eq_pairSpanSum (T ws we : ℚ) :
    ∀ events : List ℚ, covered T ws we events = pairSpanSum events ws we T := by
  intro events
  induction events with
  | nil => simp [covered, pairSpanSum]
  | cons t rest ih =>
      cases rest with
      | nil => simp [covered, pairSpanSum]
      | cons t2 rest2 =>
          simp only [covered, pairSpanSum] at ih ⊢
          simp [List.zip, List.zipWith, ih]
          ring

theorem uptime_pct_nonneg_le (events : List ℚ) (ws we T : ℚ) :
    0 ≤ uptime_pct events ws we T ∧ uptime_pct events ws we T ≤ 100 := by
  unfold uptime_pct
  split_ifs with h
  · norm_num
  · exact ⟨le_min (by norm_num) (le_max_left 0 _), min_le_left _ _⟩

theorem uptime_pct_eq_of_sorted (events : List ℚ) (ws we T : ℚ)
    (hs : List.Chain' (fun a b => a ≤ b) events) (hw : 0 < we - ws) :
    uptime_pct events ws we T = covered T ws we events / (we - ws) * 100 := by
  have hcov0 : 0 ≤ covered T ws we events := covered_nonneg T ws we events
  have hcovle : covered T ws we events ≤ we - ws := by
    cases events with
    | nil => simpa [covered] using le_of_lt hw
    | cons t rest =>
        have h1 := covered_le_of_sorted T ws we t rest hs
        have h2 : we - max t ws ≤ we - ws := by
          have h5 := le_max_right t ws
          linarith
        have h3 : max 0 (we - max t ws) ≤ max 0 (we - ws) := max_le_max le_rfl h2
        have h4 : max 0 (we - ws) = we - ws := max_eq_right (le_of_lt hw)
        linarith
  unfold uptime_pct
  rw [if_neg (not_le.mpr hw)]
  have hx0 : 0 ≤ covered T ws we events / (we - ws) * 100 :=
    mul_nonneg (div_nonneg hcov0 (le_of_lt hw)) (by norm_num)
  have hx100 : covered T ws we events / (we - ws) * 100 ≤ 100 := by
    have h5 : covered T ws we events / (we - ws) ≤ 1 := by
      rw [div_le_one₀ hw]
      exact hcovle
    nlinarith
  rw [max_eq_right hx0, min_eq_right hx100]

/-- C1: the Status Evaluator's `status(last_seen, now, T)` returns `ONLINE`
iff `now - last_seen ≤ T`, with the boundary `now - last_seen = T`
classified `ONLINE` (inclusive); otherwise it returns `OFFLINE`. -/
theorem C1_status_online_iff_within_threshold (last_seen now T : ℚ) :
    (status last_seen now T = Status.ONLINE ↔ now - last_seen ≤ T) ∧
    (status last_seen now T = Status.OFFLINE ↔ T < now - last_seen) := by
  unfold status
  split_ifs with h
  · constructor
    · simp [h]
    · simp [not_lt, h]
  · constructor
    · simp [h]
    · simp [not_le.mp h]

/-- C2: on a sorted event history over a nondegenerate window, `uptime_pct`
is exactly the interval-coverage sum (over consecutive pairs the clipped
span `min (tnext - t) T` starting at `t`, plus the final event's clipped
span `min (we - t) T`) divided by the window length, times 100; and on the
specified scenario (window `[0, 600]`, events `0,100,...,500`, threshold
`150`) it evaluates exactly to 100. -/
theorem C2_uptime_is_interval_coverage :
    (∀ (events : List ℚ) (ws we T : ℚ),
        List.Chain' (fun a b => a ≤ b) events → 0 < we - ws →
        uptime_pct events ws we T = pairSpanSum events ws we T / (we - ws) * 100) ∧
    uptime_pct [0, 100, 200, 300, 400, 500] 0 600 150 = 100 := by
  constructor
  · intro events ws we T hs hw
    rw [uptime_pct_eq_of_sorted events ws we T hs hw, covered_eq_pairSpanSum]
  · norm_num [uptime_pct, covered, overlap, min_def, max_def]

theorem C2_uptime_is_interval_coverage_witness :
    uptime_pct [(0 : ℚ)] 0 10 5 = pairSpanSum [(0 : ℚ)] 0 10 5 / (10 - 0) * 100 :=
  C2_uptime_is_interval_coverage.1 [(0 : ℚ)] 0 10 5 (by simp) (by norm_num)

/-- C3 counterexample: the claim "when the window contains zero events the
result is exactly 0" fails on the interval-coverage model, because an event
strictly before `window_start` still contributes when its inferred online
span crosses into the window (as the spec itself requires): the single
event `-10` lies outside the window `[0, 100]`, yet with threshold 50 the
uptime is 40, not 0. -/
theorem C3_uptime_zero_events_counterexample :
    ((-10 : ℚ) < 0 ∨ (100 : ℚ) < -10) ∧
      uptime_pct [(-10 : ℚ)] 0 100 50 = 40 ∧ (40 : ℚ) ≠ 0 := by
  refine ⟨Or.inl (by norm_num), ?hv, by norm_num⟩
  norm_num [uptime_pct, covered, overlap, min_def, max_def]

/-- C3 (amended): `uptime_pct` always lies in `[0, 100]`; it is exactly 0
whenever no event's inferred online span reaches into the window — in
particular for an empty event history; and it is exactly `100` when events
spaced at most the threshold apart span the whole window. -/
theorem C3_uptime_bounds (events : List ℚ) (ws we T : ℚ) :
    (0 ≤ uptime_pct events ws we T ∧ uptime_pct events ws we T ≤ 100) ∧
    (∀ ws2 we2 T2 : ℚ, uptime_pct [] ws2 we2 T2 = 0) ∧
    ((∀ t ∈ events, t + T ≤ ws ∨ we ≤ t) → uptime_pct events ws we T = 0) ∧
    (∀ (t : ℚ) (rest : List ℚ),
        List.Chain' (fun a b => a ≤ b ∧ b - a ≤ T) (t :: rest) →
        t ≤ ws → ws < we → lastEv (t :: rest) ≤ we → we - lastEv (t :: rest) ≤ T →
        uptime_pct (t :: rest) ws we T = 100) := by
  refine ⟨uptime_pct_nonneg_le events ws we T, ?hempty, ?hzero, ?hfull⟩
  case hempty =>
    intro ws2 we2 T2
    unfold uptime_pct
    split_ifs <;> simp [covered]
  case hzero =>
    intro hdisj
    unfold uptime_pct
    rw [covered_eq_zero_of_disjoint T ws we events hdisj]
    split_ifs <;> simp
  case hfull =>
    intro t rest hch hts hwswe hle hT
    have hcov := covered_ge_of_dense T ws we t rest hch hle hT
    rw [max_eq_right hts] at hcov
    have hw : 0 < we - ws := by linarith
    unfold uptime_pct
    rw [if_neg (not_le.mpr hw)]
    have h1 : (1 : ℚ) ≤ covered T ws we (t :: rest) / (we - ws) := by
      rw [le_div_iff₀ hw]
      linarith
    have h2 : (100 : ℚ) ≤ covered T ws we (t :: rest) / (we - ws) * 100 := by
      nlinarith
    rw [max_eq_right (by linarith : (0 : ℚ) ≤ covered T ws we (t :: rest) / (we - ws) * 100),
      min_eq_left h2]

theorem C3_uptime_bounds_witness :
    uptime_pct [(0 : ℚ)] 0 5 10 = 100 :=
  (C3_uptime_bounds [(0 : ℚ)] 0 5 10).2.2.2 0 [] (by simp) (by norm_num)
    (by norm_num) (by norm_num [lastEv]) (by norm_num [lastEv])

/-- C4: the Backoff Controller's failure-branch delay is
`min (I * 2 ^ n) cap` with the cap fixed at 10 times the base interval;
for a nonnegative base interval it is monotonically non-decreasing in `n`,
and it is exactly the cap for every `n` at which `I * 2 ^ n` has reached
the cap — in particular for every `n ≥ 4`. -/
theorem C4_backoff_formula_and_monotone (I : ℚ) (hI : 0 ≤ I) :
    (∀ n : ℕ, next_delay_failure I n = min (I * 2 ^ n) (10 * I)) ∧
    (∀ n m : ℕ, n ≤ m → next_delay_failure I n ≤ next_delay_failure I m) ∧
    (∀ n : ℕ, cap I ≤ I * 2 ^ n → next_delay_failure I n = cap I) ∧
    (∀ n : ℕ, 4 ≤ n → next_delay_failure I n = cap I) := by
  have hcap : ∀ n : ℕ, 4 ≤ n → cap I ≤ I * 2 ^ n := by
    intro n hn
    have h1 : (2 : ℚ) ^ 4 ≤ 2 ^ n := pow_le_pow_right₀ (by norm_num) hn
    have h2 : (10 : ℚ) ≤ 2 ^ n := by
      norm_num at h1
      linarith
    calc cap I = 10 * I := rfl
    _ ≤ 2 ^ n * I := by nlinarith
    _ = I * 2 ^ n := by ring
  refine ⟨fun n => rfl, ?mono, ?atcap, ?habove⟩
  case mono =>
    intro n m hnm
    unfold next_delay_failure
    apply min_le_min _ le_rfl
    apply mul_le_mul_of_nonneg_left _ hI
    exact pow_le_pow_right₀ (by norm_num) hnm
  case atcap =>
    intro n h
    exact min_eq_right h
  case habove =>
    intro n hn
    exact min_eq_right (hcap n hn)

theorem C4_backoff_formula_and_monotone_witness :
    next_delay_failure 1 5 = cap 1 :=
  (C4_backoff_formula_and_monotone 1 (by norm_num)).2.2.2 5 (by norm_num)

/-- C5: a single successful send resets the consecutive-failure counter to
0 regardless of its prior value (no gradual decay), and the success-branch
delay is the steady-state interval itself. -/
theorem C5_success_resets_backoff (n : ℕ) (I : ℚ) :
    backoffAfter true n = 0 ∧
    senderStep (SenderState.SENDING, n) SenderEvent.sendSuccess
      = (SenderState.WAITING, 0) ∧
    next_delay_success I = I :=
  ⟨rfl, rfl, rfl⟩

/-- C6 counterexample: with `max_retries = 3` and base interval 1, three
consecutive failures reach the exhausted state, but the failure-branch
delay governing the fourth attempt is `min (1 * 2 ^ 3) 10 = 8`, not the
cap 10 — post-exhaustion attempts are not all "at the capped delay". -/
theorem C6_capped_delay_counterexample :
    senderRun (SenderState.SENDING, 0)
        [SenderEvent.sendFailure, SenderEvent.delayElapsed, SenderEvent.sendFailure,
          SenderEvent.delayElapsed, SenderEvent.sendFailure]
      = (SenderState.WAITING, 3) ∧
    exhausted 3 3 = true ∧
    next_delay_failure 1 3 = 8 ∧ cap 1 = 10 ∧ (8 : ℚ) ≠ 10 := by
  refine ⟨rfl, rfl, ?h8, ?h10, by norm_num⟩
  case h8 => norm_num [next_delay_failure, cap, min_def]
  case h10 => norm_num [cap]

/-- C6 (amended): after `max_retries` consecutive failures the controller
signals exhausted, yet the Sender never permanently stops retrying:
`STOPPED` is reachable only through the operator stop stimulus, nothing
leaves `STOPPED` and no attempt resolves there, a failure at any counter
value leads back to `SENDING` once the delay elapses, and every
failure-branch delay is bounded by the cap — equal to the cap once
`I * 2 ^ n` reaches it. -/
theorem C6_never_stops_retrying :
    (∀ (s : SenderState) (n : ℕ) (ev : SenderEvent),
        (senderStep (s, n) ev).1 = SenderState.STOPPED →
        s = SenderState.STOPPED ∨ ev = SenderEvent.operatorStop) ∧
    (∀ (n : ℕ) (ev : SenderEvent),
        senderStep (SenderState.STOPPED, n) ev = (SenderState.STOPPED, n) ∧
        attemptOccurs SenderState.STOPPED ev = false) ∧
    (∀ n : ℕ,
        senderStep (SenderState.SENDING, n) SenderEvent.sendFailure
          = (SenderState.WAITING, n + 1) ∧
        senderStep (SenderState.WAITING, n + 1) SenderEvent.delayElapsed
          = (SenderState.SENDING, n + 1)) ∧
    (∀ (mr : ℤ) (n : ℕ), exhausted mr n = true ↔ 0 < mr ∧ mr ≤ (n : ℤ)) ∧
    (∀ I : ℚ, 0 ≤ I → ∀ n : ℕ,
        next_delay_failure I n ≤ cap I ∧
        (cap I ≤ I * 2 ^ n → next_delay_failure I n = cap I)) := by
  refine ⟨?h1, ?h2, ?h3, ?h4, ?h5⟩
  case h1 =>
    intro s n ev h
    cases s <;> cases ev <;> simp_all [senderStep]
  case h2 =>
    intro n ev
    cases ev <;> exact ⟨rfl, rfl⟩
  case h3 =>
    intro n
    exact ⟨rfl, rfl⟩
  case h4 =>
    intro mr n
    unfold exhausted
    simp
  case h5 =>
    intro I hI n
    exact ⟨min_le_right _ _, fun h => min_eq_right h⟩

theorem C6_never_stops_retrying_witness :
    next_delay_failure 1 4 = cap 1 :=
  (C6_never_stops_retrying.2.2.2.2 1 (by norm_num) 4).2 (by norm_num [cap])

/-- C7: a non-positive `max_retries` never signals exhausted yet still
permits unlimited retries: at every failure count the Sender still
transitions failure → WAITING → SENDING, and the failure-branch delay
remains bounded by the cap, equal to it from `n = 4` on. -/
theorem C7_nonpositive_max_retries_never_exhausted
    (mr : ℤ) (hmr : mr ≤ 0) (n : ℕ) (I : ℚ) (hI : 0 ≤ I) :
    exhausted mr n = false ∧
    senderStep (SenderState.SENDING, n) SenderEvent.sendFailure
      = (SenderState.WAITING, n + 1) ∧
    senderStep (SenderState.WAITING, n) SenderEvent.delayElapsed
      = (SenderState.SENDING, n) ∧
    next_delay_failure I n ≤ cap I ∧
    (4 ≤ n → next_delay_failure I n = cap I) := by
  refine ⟨?h1, rfl, rfl, min_le_right _ _, ?h2⟩
  case h1 =>
    unfold exhausted
    simp [not_lt.mpr hmr]
  case h2 =>
    intro hn
    apply min_eq_right
    have h1 : (2 : ℚ) ^ 4 ≤ 2 ^ n := pow_le_pow_right₀ (by norm_num) hn
    have h2 : (10 : ℚ) ≤ 2 ^ n := by
      norm_num at h1
      linarith
    calc cap I = 10 * I := rfl
    _ ≤ 2 ^ n * I := by nlinarith
    _ = I * 2 ^ n := by ring

theorem C7_nonpositive_max_retries_never_exhausted_witness :
    exhausted 0 5 = false ∧ next_delay_failure 1 5 = cap 1 :=
  ⟨(C7_nonpositive_max_retries_never_exhausted 0 (by norm_num) 5 1 (by norm_num)).1,
    (C7_nonpositive_max_retries_never_exhausted 0 (by norm_num) 5 1
        (by norm_num)).2.2.2.2 (by norm_num)⟩

/-- C8 counterexample: the sweep policy does not preserve every event a
trailing-window uptime query needs.  With `now = 1000`, retention horizon
50, window length 100 and threshold 150, the event at 899 is strictly
older than `max 50 100` and is deleted, yet before the sweep it gave the
window `[900, 1000]` an uptime of 100 and after the sweep the uptime is
0. -/
theorem C8_sweep_deletes_needed_event_counterexample :
    sweep 1000 50 100 [899] = [] ∧
    uptime_pct [(899 : ℚ)] 900 1000 150 = 100 ∧
    uptime_pct (sweep 1000 50 100 [899]) 900 1000 150 = 0 := by
  have h1 : sweep 1000 50 100 [899] = [] := by
    norm_num [sweep, List.filter_cons, max_def]
  refine ⟨h1, ?h2, ?h3⟩
  case h2 => norm_num [uptime_pct, covered, overlap, min_def, max_def]
  case h3 =>
    rw [h1]
    norm_num [uptime_pct, covered, min_def, max_def]

/-- C8 (amended): the sweep deletes exactly the events strictly older than
`max retention_horizon window_len`; consequently every event inside the
trailing window `[now - window_len, now]` survives, so the window itself
is never truncated — but an event strictly before `window_start` whose
online span crosses into the window may still be deleted. -/
theorem C8_sweep_preserves_window (now rh wl : ℚ) (events : List ℚ) (t : ℚ)
    (ht : t ∈ events) :
    (t ∈ sweep now rh wl events ↔ now - max rh wl ≤ t) ∧
    (now - wl ≤ t → t ∈ sweep now rh wl events) := by
  constructor
  · unfold sweep
    simp [List.mem_filter, ht]
  · intro hwin
    unfold sweep
    rw [List.mem_filter]
    refine ⟨ht, ?hkeep⟩
    simp only [decide_eq_true_eq]
    have h1 : wl ≤ max rh wl := le_max_right _ _
    linarith

theorem C8_sweep_preserves_window_witness :
    (7 : ℚ) ∈ sweep 10 3 4 [(7 : ℚ)] :=
  (C8_sweep_preserves_window 10 3 4 [(7 : ℚ)] 7 (by simp)).2 (by norm_num)

/-- C9: on every platform and from every caller working directory the
launcher issues exactly one spawn, running client_tray.py resolved from
the launcher's own directory, without waiting on the child; on win32 the
spawn carries exactly `DETACHED_PROCESS | CREATE_NO_WINDOW`, and on any
other platform no creation flags. -/
theorem C9_launcher_single_detached_spawn
    (platform pythonExe script_dir cwd1 cwd2 : String) :
    (launcher_spawns platform pythonExe script_dir cwd1).length = 1 ∧
    launcher_spawns platform pythonExe script_dir cwd1
      = launcher_spawns platform pythonExe script_dir cwd2 ∧
    launcher_spawns platform pythonExe script_dir cwd1
      = [{ args := [pythonExe, joinPath script_dir clientTrayScript],
           creationflags :=
             if platform = win32Platform then DETACHED_PROCESS ||| CREATE_NO_WINDOW
             else 0,
           close_fds := true, waits_for_exit := false }] := by
  unfold launcher_spawns
  split_ifs <;> simp

/-- C10: build.ps1 never reaches the PyInstaller invocation when a
precondition fails: a missing client_tray.py aborts with exit code 1
before the cleanup of old build artifacts and before any build attempt; a
failing dependency install aborts with exit code 1 before any build
attempt; and the build is attempted only when both preconditions hold. -/
theorem C10_build_ps1_guards (env : BuildEnv) :
    (env.client_tray_exists = false →
        build_ps1 env =
          { processes_killed := true, artifacts_cleaned := false,
            install_attempted := false, build_attempted := false,
            exit_code := some 1 }) ∧
    (env.client_tray_exists = true → env.pip_install_succeeds = false →
        build_ps1 env =
          { processes_killed := true, artifacts_cleaned := true,
            install_attempted := true, build_attempted := false,
            exit_code := some 1 }) ∧
    ((build_ps1 env).build_attempted = true →
        env.client_tray_exists = true ∧ env.pip_install_succeeds = true) := by
  obtain ⟨ct, pip⟩ := env
  cases ct <;> cases pip <;> simp [build_ps1]

theorem C10_build_ps1_guards_witness :
    build_ps1 { client_tray_exists := false, pip_install_succeeds := true } =
      { processes_killed := true, artifacts_cleaned := false,
        install_attempted := false, build_attempted := false,
        exit_code := some 1 } ∧
    build_ps1 { client_tray_exists := true, pip_install_succeeds := false } =
      { processes_killed := true, artifacts_cleaned := true,
        install_attempted := true, build_attempted := false,
        exit_code := some 1 } :=
  ⟨(C10_build_ps1_guards _).1 rfl, (C10_build_ps1_guards _).2.1 rfl rfl⟩

end Heartbeat
